import Mathlib

/-!
Verification of the `dfm_tb` statistical helper toolkit.

This file is a shallow embedding, in Lean 4, of the Python source files
`dfm_tb/utilities.py`, `dfm_tb/stats.py` and `dfm_tb/tables.py`.

Modelling conventions:
* A pandas `DataFrame` is a column-name list together with a list of rows;
  a row is a total function from column names to `Option ℚ`, where `none`
  models a missing value (`NaN`) and `some q` a numeric cell.  Python
  floats are idealised as exact rationals (for data) and reals (for
  derived statistics such as correlations); float rounding noise is not
  modelled, and no claim in this development depends on it.
* Python exceptions are modelled by the `Except PyErr` monad; the
  constructors of `PyErr` record the exception class and message.
* `f"{v:.{d}f}"` fixed-point formatting is modelled by `fmtFixed`, using
  round-half-to-even (the rounding used by both Python float formatting
  and `numpy.round`) on exact rationals.
-/

/-- Python exception values: the exception class together with its message. -/
inductive PyErr where
  | valueError : String → PyErr
  | typeError : String → PyErr
  | keyError : String → PyErr
deriving DecidableEq, Repr

/-- A pandas DataFrame: ordered column names plus a list of rows.  A row is a
total function from column names to an optional rational; `none` models `NaN`. -/
structure DataFrame where
  cols : List String
  rows : List (String → Option ℚ)

/-- Build a row from an association list of cells (absent keys are missing). -/
def mkRow (cells : List (String × ℚ)) : String → Option ℚ :=
  fun c => (cells.lookup c)

/-- Column selection `df[cols]`: restricts the visible columns; row data are
shared (pandas returns a new frame over the same data). -/
def select (df : DataFrame) (cs : List String) : DataFrame :=
  { cols := cs, rows := df.rows }

/-- The `DataFrame.dropna()` method: keeps the rows in which every visible
column is non-missing. -/
def dropna (df : DataFrame) : DataFrame :=
  { cols := df.cols
    rows := df.rows.filter (fun r => df.cols.all (fun c => (r c).isSome)) }

/-- The non-missing values of one column, in row order.  This models both
`df[col]` followed by NaN-dropping operations (`value_counts`, `mean`, `std`,
correlation over a `dropna`-ed frame). -/
def colVals (df : DataFrame) (c : String) : List ℚ :=
  df.rows.filterMap (fun r => r c)

/-- Auxiliary for `dedupFirst`: drop the elements already seen. -/
def dedupFirstAux {α : Type} [DecidableEq α] (seen : List α) : List α → List α
  | [] => []
  | x :: xs =>
      if x ∈ seen then dedupFirstAux seen xs
      else x :: dedupFirstAux (x :: seen) xs

/-- Order-preserving deduplication, keeping the first occurrence of each
element: the model of Python `list(dict.fromkeys(flat))` and of pandas
`Series.unique()`. -/
def dedupFirst {α : Type} [DecidableEq α] (l : List α) : List α :=
  dedupFirstAux [] l

/-- Round a rational to the nearest integer, ties to even: the rounding mode
of Python float formatting and of `numpy.round`. -/
def roundHalfEvenQ (q : ℚ) : ℤ :=
  let f : ℤ := ⌊q⌋
  if q - f < 1/2 then f
  else if q - f > 1/2 then f + 1
  else if Even f then f else f + 1

/-- Left-pad a digit string with zeros up to width `d`. -/
def padZeros (d : ℕ) (s : String) : String :=
  String.mk (List.replicate (d - s.length) '0') ++ s

/-- Fixed-point decimal rendering of a rational with `d` digits after the
point: the model of Python `f"{p:.{d}f}"`. -/
def fmtFixed (q : ℚ) (d : ℕ) : String :=
  let scaled := roundHalfEvenQ (q * (10 : ℚ) ^ d)
  let sign := if scaled < 0 then "-" else ""
  let m := scaled.natAbs
  if d = 0 then sign ++ toString m
  else sign ++ toString (m / 10 ^ d) ++ "." ++ padZeros d (toString (m % 10 ^ d))

/-- Embedding of `utilities.format_pval_flt(p, digits)`.  The Python
parameter `digits` has no default value; `none` models an explicit Python
`None` argument, which the body replaces by 4. -/
def format_pval_flt (p : ℚ) (digits : Option ℕ) : String :=
  let digits := digits.getD 4
  if p < 1/10000 then "<0.0001" else fmtFixed p digits

/-- Embedding of `utilities.format_pval_df(pvals, digits=None)`: the series
is modelled as a list and `Series.apply` as `List.map`. -/
def format_pval_df (pvals : List ℚ) (digits : Option ℕ) : List String :=
  let digits := digits.getD 4
  pvals.map (fun p => if p < 1/10000 then "<0.0001" else fmtFixed p digits)

/-! ## Embedding of `stats.py` (`get_steigers_z`) -/

/-- Sum of a rational list, viewed in `ℝ`. -/
def rsum (l : List ℚ) : ℝ :=
  (l.map (fun q => (q : ℝ))).sum

/-- Pearson correlation coefficient of two equal-length samples, as computed
by `DataFrame.corr(method="pearson")`:
`r = S_xy / sqrt (S_xx * S_yy)` over deviations from the means. -/
noncomputable def pearsonR (xs ys : List ℚ) : ℝ :=
  let n : ℝ := xs.length
  let mx := rsum xs / n
  let my := rsum ys / n
  let sxy := ((xs.zip ys).map (fun p => ((p.1 : ℝ) - mx) * ((p.2 : ℝ) - my))).sum
  let sxx := (xs.map (fun x => ((x : ℝ) - mx) ^ 2)).sum
  let syy := (ys.map (fun y => ((y : ℝ) - my) ^ 2)).sum
  sxy / Real.sqrt (sxx * syy)

/-- Average (midrank) ranks of a sample, 1-based with ties averaged: the
ranking used by `DataFrame.corr(method="spearman")`. -/
def avgRanks (xs : List ℚ) : List ℚ :=
  xs.map (fun x =>
    (xs.countP (fun y => y < x) : ℚ) + ((xs.countP (fun y => y = x) : ℚ) + 1) / 2)

/-- Pairwise column correlation under the requested method, as produced by
`temp.corr(method=corr_method)`: Spearman is Pearson on midranks. -/
noncomputable def corrM (method : String) (xs ys : List ℚ) : ℝ :=
  if method = "spearman" then pearsonR (avgRanks xs) (avgRanks ys)
  else pearsonR xs ys

/-- Standard normal cumulative distribution function (`scipy.stats.norm.cdf`). -/
noncomputable def normCdf (x : ℝ) : ℝ :=
  ∫ t in Set.Iic x, Real.exp (-(t ^ 2) / 2) / Real.sqrt (2 * Real.pi)

/-- Inverse hyperbolic tangent (`numpy.arctanh`), the Fisher z-transform:
`arctanh x = log ((1 + x) / (1 - x)) / 2`. -/
noncomputable def arctanhR (x : ℝ) : ℝ :=
  Real.log ((1 + x) / (1 - x)) / 2

/-- Round a real to the nearest integer, ties to even (`numpy` rounding). -/
noncomputable def roundHalfEvenR (x : ℝ) : ℤ :=
  let f : ℤ := ⌊x⌋
  if x - f < 1/2 then f
  else if x - f > 1/2 then f + 1
  else if Even f then f else f + 1

/-- The `z.round(2)` step applied to the z statistic before it is stored. -/
noncomputable def round2R (x : ℝ) : ℝ :=
  (roundHalfEvenR (x * 100) : ℝ) / 100

/-- The flattened, order-preserving deduplicated variable list of one
second-order pair: `flat = list(dict.fromkeys(list(pair[0]) + list(pair[1])))`. -/
def flatOf (pair : (String × String) × (String × String)) : List String :=
  dedupFirst [pair.1.1, pair.1.2, pair.2.1, pair.2.2]

/-- The per-comparison working frame: `temp = df[flat].dropna().copy()`. -/
def tempOf (df : DataFrame) (pair : (String × String) × (String × String)) :
    DataFrame :=
  dropna (select df (flatOf pair))

/-- The per-comparison common sample size: `n = len(temp)`. -/
def nOf (df : DataFrame) (pair : (String × String) × (String × String)) : ℕ :=
  (tempOf df pair).rows.length

/-- The z statistic computed by the loop body of `get_steigers_z` for one
second-order pair.  The correlations `r12, r13, r23` (resp. `r12 .. r34`)
are the upper-triangular entries, in row-major order, of
`temp.corr(method=corr_method)` whose column order is `flat`; this is
exactly the order in which `upper_vals` is indexed in the source.  The
overlapping branch (three distinct variables) uses Steiger's overlapping
formula on `r12` and `r13`; the non-overlapping branch (four distinct
variables) uses the non-overlapping formula on `r12` and `r34`. -/
noncomputable def comparisonZ (df : DataFrame) (method : String)
    (pair : (String × String) × (String × String)) : ℝ :=
  let flat := flatOf pair
  let temp := tempOf df pair
  let n := nOf df pair
  if flat.length = 3 then
    let f0 := flat.getD 0 ""
    let f1 := flat.getD 1 ""
    let f2 := flat.getD 2 ""
    let r12 := corrM method (colVals temp f0) (colVals temp f1)
    let r13 := corrM method (colVals temp f0) (colVals temp f2)
    let r23 := corrM method (colVals temp f1) (colVals temp f2)
    let numerator := (r12 - r13) * Real.sqrt ((n : ℝ) - 3) * Real.sqrt (1 + r23)
    let denominator :=
      Real.sqrt (2 * (1 - r12 ^ 2 - r13 ^ 2 - r23 ^ 2 + 2 * r12 * r13 * r23))
    numerator / denominator
  else
    let f0 := flat.getD 0 ""
    let f1 := flat.getD 1 ""
    let f2 := flat.getD 2 ""
    let f3 := flat.getD 3 ""
    let r12 := corrM method (colVals temp f0) (colVals temp f1)
    let r13 := corrM method (colVals temp f0) (colVals temp f2)
    let r14 := corrM method (colVals temp f0) (colVals temp f3)
    let r23 := corrM method (colVals temp f1) (colVals temp f2)
    let r24 := corrM method (colVals temp f1) (colVals temp f3)
    let r34 := corrM method (colVals temp f2) (colVals temp f3)
    let r_bar := 0.5 * (r12 + r34)
    let s_num :=
      (r13 - r_bar * r23) * (r24 - r_bar * r23) +
      (r14 - r_bar * r13) * (r23 - r_bar * r13) +
      (r13 - r_bar * r14) * (r24 - r_bar * r14) +
      (r14 - r_bar * r24) * (r23 - r_bar * r24)
    let s_denom := (1 - r_bar ^ 2) * (1 - r_bar ^ 2)
    let s_1234 := 0.5 * s_num / s_denom
    let z12 := arctanhR r12
    let z34 := arctanhR r34
    Real.sqrt ((n : ℝ) - 3) * (z12 - z34) / Real.sqrt (2 - 2 * s_1234)

/-- The call `format_pval_flt(p_value)` made at `stats.py:101` and
`stats.py:158`.  The Python definition `def format_pval_flt(p, digits):`
declares two parameters and gives `digits` no default value, so a
one-argument call raises `TypeError` at call time, before the function body
runs.  This definition embeds exactly that call-site semantics. -/
def call_format_pval_flt_1 (_p : ℝ) : Except PyErr String :=
  Except.error (PyErr.typeError
    "format_pval_flt() missing 1 required positional argument: \x27digits\x27")

/-- One result row appended by `get_steigers_z`. -/
structure SteigerRow where
  comparison : String
  z : ℝ
  pvalue : String

/-- The comparison label
`f"{pair[0][0]}-{pair[0][1]} vs. {pair[1][0]}-{pair[1][1]}"`. -/
def comparisonLabel (pair : (String × String) × (String × String)) : String :=
  pair.1.1 ++ "-" ++ pair.1.2 ++ " vs. " ++ pair.2.1 ++ "-" ++ pair.2.2

/-- One iteration of the result loop of `get_steigers_z`: compute the z
statistic, the two-tailed p-value, format the p-value (a call which raises
`TypeError`, see `call_format_pval_flt_1`), and assemble the row dictionary. -/
noncomputable def steigerRowFor (df : DataFrame) (method : String)
    (pair : (String × String) × (String × String)) : Except PyErr SteigerRow := do
  let z := comparisonZ df method pair
  let p_value := 2 * (1 - normCdf |z|)
  let pstr ← call_format_pval_flt_1 p_value
  pure { comparison := comparisonLabel pair, z := round2R z, pvalue := pstr }

/-- Sequence a fallible computation over a list, stopping at the first
raised exception: the model of a Python `for` loop that appends to a result
list and can raise. -/
def exceptMapM {ε α β : Type} (f : α → Except ε β) : List α → Except ε (List β)
  | [] => Except.ok []
  | x :: xs =>
      match f x with
      | Except.error e => Except.error e
      | Except.ok y =>
          match exceptMapM f xs with
          | Except.error e => Except.error e
          | Except.ok ys => Except.ok (y :: ys)

/-- All ordered pairs of distinct elements, in the order produced by
`itertools.combinations(l, 2)`. -/
def combinations2 {α : Type} : List α → List (α × α)
  | [] => []
  | x :: xs => xs.map (fun y => (x, y)) ++ combinations2 xs

/-- Embedding of `stats.get_steigers_z(df, corr_method)`: validate the
method, enumerate first-order pairs (`combinations(df.columns, 2)`) and
second-order pairs (`combinations(first_order_pairs, 2)`), and run the
result loop. -/
noncomputable def get_steigers_z (df : DataFrame) (corr_method : String) :
    Except PyErr (List SteigerRow) :=
  if ¬ (corr_method = "spearman" ∨ corr_method = "pearson") then
    Except.error (PyErr.valueError
      "method must be either \x27spearman\x27 or \x27pearson\x27")
  else
    let first_order_pairs := combinations2 df.cols
    let second_order_pairs := combinations2 first_order_pairs
    exceptMapM (steigerRowFor df corr_method) second_order_pairs

/-! ## Embedding of `tables.py` (`freq_prop`, `all_apply`, `summarize`) -/

/-- Stable descending insertion by a natural-number key. -/
def insertDescBy {α : Type} (key : α → ℕ) (p : α) : List α → List α
  | [] => [p]
  | q :: qs => if key q > key p then q :: insertDescBy key p qs else p :: q :: qs

/-- Stable sort, descending by a natural-number key: the model of sorting by
count in `Series.value_counts()` and of
`sort_values(by="count", ascending=False)`.  (pandas uses an unstable sort;
no claim depends on the relative order of tied keys.) -/
def sortDescBy {α : Type} (key : α → ℕ) (l : List α) : List α :=
  l.foldr (insertDescBy key) []

/-- The `Series.value_counts()` result: one `(value, count)` entry per
distinct non-missing value, sorted by descending count. -/
def valueCounts (xs : List ℚ) : List (ℚ × ℕ) :=
  sortDescBy Prod.snd ((dedupFirst xs).map (fun v => (v, xs.count v)))

/-- The `"count (proportion%)"` cell built by `freq_prop`: the count, then
the proportion among the `total` counted values times 100 rounded to one
decimal, with `%` inside parentheses. -/
def freqCell (count total : ℕ) : String :=
  toString count ++ " (" ++ fmtFixed ((count : ℚ) / (total : ℚ) * 100) 1 ++ "%)"

/-- Rendering of one grouping value in a `f"{b}, N = ..."` column header.
This abstracts Python `str()` on a float cell; no claim depends on it. -/
def showCellQ : Option ℚ → String
  | none => "nan"
  | some v => if v.den = 1 then toString v.num ++ ".0" else toString v

/-- The data rows of the table returned by `freq_prop`: the key column holds
the distinct values of the tallied column, and each further cell is either a
formatted `"count (proportion%)"` string or missing (after an outer merge). -/
structure FreqTable where
  cols : List String
  rows : List (ℚ × List (Option String))
  labels : List String

/-- One outer-merge step `result_df.merge(sub_df, on=column, how="outer")`:
existing keys keep their cells and gain the matching cell of `sub` (missing
when absent); keys new in `sub` enter with all earlier cells missing.
(pandas sorts the keys of an outer merge; the key order is not modelled and
no claim depends on it.) -/
def mergeOuterStep (cols : List String) (rows : List (ℚ × List (Option String)))
    (hdr : String) (sub : List (ℚ × String)) :
    List String × List (ℚ × List (Option String)) :=
  let old := rows.map (fun kr => (kr.1, kr.2 ++ [sub.lookup kr.1]))
  let fresh := (sub.filter (fun p => rows.all (fun kr => kr.1 ≠ p.1))).map
      (fun p => (p.1, List.replicate (cols.length - 1) (none : Option String) ++ [some p.2]))
  (cols ++ [hdr], old ++ fresh)

/-- The `**bold**` column labels applied through `cols_label` in `freq_prop`. -/
def boldLabels (cs : List String) : List String :=
  cs.map (fun c => "**" ++ c ++ "**")

/-- Embedding of `tables.freq_prop(df, column, by=None)`.  With `by=None`
it tallies the non-missing values of `column` (`value_counts` drops `NaN`,
`normalize=True` divides by the number of counted values) and heads the
value column `"N = len(df)"` with the total row count; with a grouping
column it builds one tally per distinct grouping value (rows whose grouping
cell is `NaN` match nothing, as `NaN == b` is false) and outer-merges them. -/
def freq_prop (df : DataFrame) (column : String) (by_ : Option String) :
    Except PyErr FreqTable :=
  if column ∉ df.cols then
    Except.error (PyErr.valueError
      ("Column \x27" ++ column ++ "\x27 not found in dataframe."))
  else
    match by_ with
    | none =>
        let vals := colVals df column
        let vc := valueCounts vals
        let total := vals.length
        let hdr := "N = " ++ toString df.rows.length
        let rows := vc.map (fun p => (p.1, [some (freqCell p.2 total)]))
        Except.ok { cols := [column, hdr], rows := rows,
                    labels := boldLabels [column, hdr] }
    | some b =>
        if b ∉ df.cols then
          Except.error (PyErr.keyError ("\x27" ++ b ++ "\x27"))
        else
          let byVals := dedupFirst (df.rows.map (fun r => r b))
          let step := fun (acc : List String × List (ℚ × List (Option String)))
              (bv : Option ℚ) =>
            let subset : List (String → Option ℚ) := match bv with
              | none => []
              | some v => df.rows.filter (fun r => r b == some v)
            let svals := subset.filterMap (fun r => r column)
            let svc := valueCounts svals
            let stotal := svals.length
            let hdr := showCellQ bv ++ ", N = " ++ toString df.rows.length
            let sub := svc.map (fun p => (p.1, freqCell p.2 stotal))
            mergeOuterStep acc.1 acc.2 hdr sub
          let merged := byVals.foldl step ([column], [])
          Except.ok { cols := merged.1, rows := merged.2,
                      labels := boldLabels merged.1 }

/-- The output table of `all_apply` (a plain `GT` over the two kept columns). -/
structure ApplyTable where
  cols : List String
  rows : List (String × String)
deriving DecidableEq, Repr

/-- The `notna().astype(int)` indicator of one column: 1 for a present cell,
0 for a missing one, in row order. -/
def indicator (df : DataFrame) (c : String) : List ℕ :=
  df.rows.map (fun r => if (r c).isSome then 1 else 0)

/-- The `ValueError` message raised by `all_apply` for a non-binary column. -/
def notBinaryMsg (c : String) : String :=
  "Column \x27" ++ c ++ "\x27 is not binary. Reformat before proceeding."

/-- One iteration of the tally loop of `all_apply`: with `N = len(df)`,
reject the column if its 0/1 indicator has other than two distinct values
(`temp[col].unique()`), otherwise produce the `(col, count, proportion)`
triple with `count = temp[col].sum()` and the proportion of `N` formatted
to one decimal with a percent sign. -/
def applyRow (df : DataFrame) (N : ℕ) (col : String) :
    Except PyErr (String × ℕ × String) :=
  if (dedupFirst (indicator df col)).length ≠ 2 then
    Except.error (PyErr.valueError (notBinaryMsg col))
  else
    Except.ok (col, (indicator df col).sum,
      fmtFixed (((indicator df col).sum : ℚ) / (N : ℚ) * 100) 1 ++ "%")

/-- Embedding of `tables.all_apply(df, columns, group_title,
sort_by_percentage)`: reject an empty column list, select the indicator
frame, run the tally loop, optionally sort by descending count, and format
`"count (proportion%)"` rows under the header `"N = len(df)"`.  A listed
column absent from `df` makes the pandas selection `df[columns]` raise
`KeyError`. -/
def all_apply (df : DataFrame) (columns : List String) (group_title : String)
    (sort_by_percentage : Bool) : Except PyErr ApplyTable :=
  if columns = [] then
    Except.error (PyErr.valueError "Column list cannot be empty.")
  else if ¬ columns.all (fun c => c ∈ df.cols) then
    Except.error (PyErr.keyError "columns not in index")
  else
    match exceptMapM (applyRow df df.rows.length) columns with
    | Except.error e => Except.error e
    | Except.ok results =>
        Except.ok
          { cols := [group_title, "N = " ++ toString df.rows.length]
            rows := (if sort_by_percentage then
                sortDescBy (fun t => t.2.1) results else results).map
              (fun t => (t.1, toString t.2.1 ++ " (" ++ t.2.2 ++ ")")) }

/-- The output table of `summarize` (a `GT` with a source note). -/
structure SummTable where
  cols : List String
  rows : List (String × String)
  sourceNote : String

/-- Mean of a sample (`Series.mean()`, which skips missing values). -/
noncomputable def meanR (xs : List ℚ) : ℝ :=
  rsum xs / (xs.length : ℝ)

/-- Sample standard deviation with one delta degree of freedom
(`Series.std()`). -/
noncomputable def sampleStd (xs : List ℚ) : ℝ :=
  Real.sqrt ((xs.map (fun x => ((x : ℝ) - meanR xs) ^ 2)).sum / ((xs.length : ℝ) - 1))

/-- Fixed-point decimal rendering of a real with `d` digits after the point
(`f"{x:.{d}f}"` on a derived statistic). -/
noncomputable def fmtFixedR (x : ℝ) (d : ℕ) : String :=
  let scaled := roundHalfEvenR (x * (10 : ℝ) ^ d)
  let sign := if scaled < 0 then "-" else ""
  let m := scaled.natAbs
  if d = 0 then sign ++ toString m
  else sign ++ toString (m / 10 ^ d) ++ "." ++ padZeros d (toString (m % 10 ^ d))

/-- Embedding of `tables.summarize(data, column)`: count the non-missing
values of the column, and report `"mean (sd)"` to two decimals under the
header `"N = count"`.  An absent column makes `data[column]` raise
`KeyError`. -/
noncomputable def summarize (data : DataFrame) (column : String) :
    Except PyErr SummTable :=
  if column ∉ data.cols then
    Except.error (PyErr.keyError ("\x27" ++ column ++ "\x27"))
  else
    let xs := colVals data column
    Except.ok
      { cols := ["Characteristic", "N = " ++ toString xs.length],
        rows := [(column,
          fmtFixedR (meanR xs) 2 ++ " (" ++ fmtFixedR (sampleStd xs) 2 ++ ")")],
        sourceNote := "<sup>1</sup> Mean (SD)" }

/-! ## State-passing view of the table-consuming calls

Each source function only applies non-mutating pandas operations to its
argument (`df[...]` selection, `dropna`, `copy`, `notna`, `value_counts`,
`corr`, arithmetic), every one of which returns a fresh object.  In this
state-passing view the input frame is the store; an in-place pandas
mutation of the argument would appear as a state write, and the source
performs none, so each call only reads the store. -/

/-- Calling `get_steigers_z` with the input frame as the store. -/
noncomputable def get_steigers_zSt (corr_method : String) :
    StateM DataFrame (Except PyErr (List SteigerRow)) := do
  let df ← get
  pure (get_steigers_z df corr_method)

/-- Calling `freq_prop` with the input frame as the store. -/
def freq_propSt (column : String) (by_ : Option String) :
    StateM DataFrame (Except PyErr FreqTable) := do
  let df ← get
  pure (freq_prop df column by_)

/-- Calling `all_apply` with the input frame as the store. -/
def all_applySt (columns : List String) (group_title : String)
    (sort_by_percentage : Bool) : StateM DataFrame (Except PyErr ApplyTable) := do
  let df ← get
  pure (all_apply df columns group_title sort_by_percentage)

/-- Calling `summarize` with the input frame as the store. -/
noncomputable def summarizeSt (column : String) :
    StateM DataFrame (Except PyErr SummTable) := do
  let df ← get
  pure (summarize df column)

/-- CLAIM C9: `format_pval_df` is the elementwise lifting of
`format_pval_flt`: for every series of p-values and every digits argument
(including `none`, which both treat as 4), mapping `format_pval_flt` over the
series yields exactly `format_pval_df` of the series. -/
theorem format_pval_df_eq_map_format_pval_flt (pvals : List ℚ)
    (digits : Option ℕ) :
    format_pval_df pvals digits =
      pvals.map (fun p => format_pval_flt p digits) := by
  unfold format_pval_df format_pval_flt
  rfl

/-! ## Shared lemmas about the embedded operations -/

/-- The loop body of `get_steigers_z` always raises: the one-argument call
to `format_pval_flt` fails before a row can be appended. -/
theorem steigerRowFor_eq_error (df : DataFrame) (method : String)
    (pair : (String × String) × (String × String)) :
    steigerRowFor df method pair = Except.error (PyErr.typeError
      "format_pval_flt() missing 1 required positional argument: \x27digits\x27") :=
  rfl

theorem exceptMapM_nil {ε α β : Type} (f : α → Except ε β) :
    exceptMapM f [] = Except.ok [] := rfl

theorem exceptMapM_error_mem {ε α β : Type} (f : α → Except ε β) (l : List α)
    (e : ε) (h : exceptMapM f l = Except.error e) : ∃ x ∈ l, f x = Except.error e := by
  induction l with
  | nil => simp [exceptMapM] at h
  | cons x xs ih =>
      rw [exceptMapM] at h
      cases hx : f x with
      | error e2 =>
          rw [hx] at h
          injection h with h2
          exact ⟨x, List.mem_cons_self x xs, by rw [hx, h2]⟩
      | ok y =>
          rw [hx] at h
          cases hxs : exceptMapM f xs with
          | error e3 =>
              rw [hxs] at h
              injection h with h2
              obtain ⟨z, hz, hfz⟩ := ih (by rw [hxs, h2])
              exact ⟨z, List.mem_cons_of_mem x hz, hfz⟩
          | ok ys =>
              rw [hxs] at h
              cases h

theorem exceptMapM_map {ε α β : Type} (f : α → Except ε β) (g : α → β)
    (l : List α) (h : ∀ x ∈ l, f x = Except.ok (g x)) :
    exceptMapM f l = Except.ok (l.map g) := by
  induction l with
  | nil => rfl
  | cons x xs ih =>
      rw [exceptMapM, h x (List.mem_cons_self x xs),
        ih (fun y hy => h y (List.mem_cons_of_mem x hy)), List.map_cons]

theorem exceptMapM_not_ok {ε α β : Type} (f : α → Except ε β) (l : List α)
    (x : α) (hx : x ∈ l) (e : ε) (hfx : f x = Except.error e) :
    ∃ e2, exceptMapM f l = Except.error e2 := by
  induction l with
  | nil => cases hx
  | cons y ys ih =>
      cases hy : f y with
      | error e3 => exact ⟨e3, by rw [exceptMapM, hy]⟩
      | ok b =>
          rcases List.mem_cons.1 hx with rfl | hmem
          · rw [hy] at hfx; cases hfx
          · obtain ⟨e2, he2⟩ := ih hmem
            exact ⟨e2, by rw [exceptMapM, hy, he2]⟩

theorem mem_dedupFirstAux {α : Type} [DecidableEq α] (l : List α) :
    ∀ (seen : List α) (a : α),
      a ∈ dedupFirstAux seen l ↔ a ∈ l ∧ a ∉ seen := by
  induction l with
  | nil => intro seen a; simp [dedupFirstAux]
  | cons x xs ih =>
      intro seen a
      by_cases hax : a = x
      · subst hax
        by_cases hx : a ∈ seen
        · rw [dedupFirstAux, if_pos hx, ih]
          simp [hx]
        · rw [dedupFirstAux, if_neg hx]
          simp [hx]
      · by_cases hx : x ∈ seen
        · rw [dedupFirstAux, if_pos hx, ih]
          simp [List.mem_cons, hax]
        · rw [dedupFirstAux, if_neg hx]
          simp [List.mem_cons, hax, ih]

theorem mem_dedupFirst {α : Type} [DecidableEq α] (l : List α) (a : α) :
    a ∈ dedupFirst l ↔ a ∈ l := by
  rw [dedupFirst, mem_dedupFirstAux]
  simp

theorem count_dedupFirstAux {α : Type} [DecidableEq α] (l : List α) :
    ∀ (seen : List α) (a : α),
      (dedupFirstAux seen l).count a = if a ∈ l ∧ a ∉ seen then 1 else 0 := by
  induction l with
  | nil => intro seen a; simp [dedupFirstAux]
  | cons x xs ih =>
      intro seen a
      by_cases hax : a = x
      · subst hax
        by_cases hx : a ∈ seen
        · rw [dedupFirstAux, if_pos hx, ih]
          simp [hx]
        · rw [dedupFirstAux, if_neg hx, List.count_cons, ih]
          simp [List.mem_cons, hx]
      · by_cases hx : x ∈ seen
        · rw [dedupFirstAux, if_pos hx, ih]
          by_cases ha : a ∈ xs <;> by_cases hs : a ∈ seen <;>
            simp [List.mem_cons, hax, ha, hs]
        · rw [dedupFirstAux, if_neg hx, List.count_cons, ih]
          by_cases ha : a ∈ xs <;> by_cases hs : a ∈ seen <;>
            simp [List.mem_cons, hax, Ne.symm hax, ha, hs]

theorem count_dedupFirst {α : Type} [DecidableEq α] (l : List α) (a : α) :
    (dedupFirst l).count a = if a ∈ l then 1 else 0 := by
  rw [dedupFirst, count_dedupFirstAux]
  simp

theorem insertDescBy_perm {α : Type} (key : α → ℕ) (p : α) (l : List α) :
    List.Perm (insertDescBy key p l) (p :: l) := by
  induction l with
  | nil => exact List.Perm.refl _
  | cons q qs ih =>
      rw [insertDescBy]
      by_cases h : key q > key p
      · rw [if_pos h]
        exact (ih.cons q).trans (List.Perm.swap p q qs)
      · rw [if_neg h]

theorem sortDescBy_perm {α : Type} (key : α → ℕ) (l : List α) :
    List.Perm (sortDescBy key l) l := by
  induction l with
  | nil => exact List.Perm.refl _
  | cons x xs ih =>
      exact (insertDescBy_perm key x (List.foldr (insertDescBy key) [] xs)).trans
        (ih.cons x)

/-! ## Claim theorems -/

/-- CLAIM C4: each public table-consuming operation performs basic input
validation and no other failure handling: `get_steigers_z` raises
`ValueError` if and only if the correlation method is neither `"spearman"`
nor `"pearson"` (the check precedes all computation, so the error does not
depend on the frame); `freq_prop` raises `ValueError` if and only if the
named column is absent from the frame; `all_apply` raises `ValueError`
whenever the column list is empty. -/
theorem validation_error_behavior :
    (∀ (df : DataFrame) (m : String),
      (∃ msg, get_steigers_z df m = Except.error (PyErr.valueError msg)) ↔
        ¬ (m = "spearman" ∨ m = "pearson")) ∧
    (∀ (df : DataFrame) (column : String) (by_ : Option String),
      (∃ msg, freq_prop df column by_ = Except.error (PyErr.valueError msg)) ↔
        column ∉ df.cols) ∧
    (∀ (df : DataFrame) (t : String) (s : Bool),
      all_apply df [] t s =
        Except.error (PyErr.valueError "Column list cannot be empty.")) := by
  refine ⟨fun df m => ?_, fun df column by_ => ?_, fun df t s => rfl⟩
  · constructor
    · rintro ⟨msg, h⟩
      by_contra hv
      rw [get_steigers_z, if_neg (not_not_intro hv)] at h
      obtain ⟨pair, _, hpair⟩ := exceptMapM_error_mem _ _ _ h
      rw [steigerRowFor_eq_error] at hpair
      cases hpair
    · intro h
      exact ⟨"method must be either \x27spearman\x27 or \x27pearson\x27",
        by rw [get_steigers_z, if_pos h]⟩
  · by_cases hc : column ∈ df.cols
    · simp only [hc, not_true_eq_false, iff_false, not_exists]
      intro msg
      rw [freq_prop.eq_def, if_neg (not_not_intro hc)]
      cases by_ with
      | none => simp
      | some b =>
          by_cases hb : b ∈ df.cols <;> simp [hb]
    · simp only [hc, not_false_eq_true, iff_true]
      exact ⟨"Column \x27" ++ column ++ "\x27 not found in dataframe.",
        by rw [freq_prop.eq_def, if_pos hc]⟩

/-- CLAIM C5: every helper is a stateless, deterministic transformation:
two calls with equal arguments yield equal outputs, and nothing outside the
arguments enters the result (each embedded function is a pure function of
its arguments alone). -/
theorem helpers_deterministic (p p2 : ℚ) (d d2 : Option ℕ) (ps ps2 : List ℚ)
    (df1 df2 df3 df4 df5 df6 df7 df8 : DataFrame) (m m2 c c2 c3 c4 : String)
    (b b2 : Option String) (cs cs2 : List String) (g g2 : String) (s s2 : Bool)
    (hp : p = p2) (hd : d = d2) (hps : ps = ps2) (h12 : df1 = df2) (hm : m = m2)
    (h34 : df3 = df4) (hc : c = c2) (hb : b = b2) (h56 : df5 = df6)
    (hcs : cs = cs2) (hg : g = g2) (hs : s = s2) (h78 : df7 = df8)
    (hc3 : c3 = c4) :
    format_pval_flt p d = format_pval_flt p2 d2 ∧
    format_pval_df ps d = format_pval_df ps2 d2 ∧
    get_steigers_z df1 m = get_steigers_z df2 m2 ∧
    freq_prop df3 c b = freq_prop df4 c2 b2 ∧
    all_apply df5 cs g s = all_apply df6 cs2 g2 s2 ∧
    summarize df7 c3 = summarize df8 c4 := by
  subst_vars
  exact ⟨rfl, rfl, rfl, rfl, rfl, rfl⟩

/-- Witness for C5 at concrete inputs. -/
theorem helpers_deterministic_witness :
    format_pval_flt (1/2) none = format_pval_flt (1/2) none ∧
    format_pval_df [1/2] none = format_pval_df [1/2] none ∧
    get_steigers_z { cols := ["x"], rows := [] } "pearson" =
      get_steigers_z { cols := ["x"], rows := [] } "pearson" ∧
    freq_prop { cols := ["x"], rows := [] } "x" none =
      freq_prop { cols := ["x"], rows := [] } "x" none ∧
    all_apply { cols := ["x"], rows := [] } ["x"] "g" false =
      all_apply { cols := ["x"], rows := [] } ["x"] "g" false ∧
    summarize { cols := ["x"], rows := [] } "x" =
      summarize { cols := ["x"], rows := [] } "x" :=
  helpers_deterministic (1/2) (1/2) none none [1/2] [1/2]
    { cols := ["x"], rows := [] } { cols := ["x"], rows := [] }
    { cols := ["x"], rows := [] } { cols := ["x"], rows := [] }
    { cols := ["x"], rows := [] } { cols := ["x"], rows := [] }
    { cols := ["x"], rows := [] } { cols := ["x"], rows := [] }
    "pearson" "pearson" "x" "x" "x" "x" none none ["x"] ["x"] "g" "g"
    false false rfl rfl rfl rfl rfl rfl rfl rfl rfl rfl rfl rfl rfl rfl

/-- CLAIM C6: no operation mutates its input frame: in the state-passing
view of each call, where a pandas in-place mutation of the argument would
appear as a write to the store, every call leaves the store equal to the
input frame, and the outputs are built exclusively from freshly constructed
values. -/
theorem no_input_mutation :
    (∀ (df : DataFrame) (m : String), ((get_steigers_zSt m).run df).2 = df) ∧
    (∀ (df : DataFrame) (c : String) (b : Option String),
      ((freq_propSt c b).run df).2 = df) ∧
    (∀ (df : DataFrame) (cs : List String) (t : String) (s : Bool),
      ((all_applySt cs t s).run df).2 = df) ∧
    (∀ (df : DataFrame) (c : String), ((summarizeSt c).run df).2 = df) :=
  ⟨fun _ _ => rfl, fun _ _ _ => rfl, fun _ _ _ _ => rfl, fun _ _ => rfl⟩

/-- CLAIM C8: the sample size used in each comparison of `get_steigers_z`
is computed per comparison: it is the number of rows of `df` in which every
variable of that comparison's (deduplicated) union of pairs is non-missing,
so different comparisons may use different sample sizes.  `nOf` is the
`n = len(temp)` of the loop body, which `comparisonZ` applies inside both
z formulas. -/
theorem nOf_eq_common_complete_rows (df : DataFrame)
    (pair : (String × String) × (String × String)) :
    nOf df pair =
      df.rows.countP (fun r => (flatOf pair).all (fun c => (r c).isSome)) := by
  rw [nOf, tempOf, dropna, select, List.countP_eq_length_filter]

/-- A concrete three-column numeric frame (four complete rows). -/
def df31 : DataFrame :=
  { cols := ["a", "b", "c"]
    rows := [mkRow [("a", 1), ("b", 2), ("c", 3)],
             mkRow [("a", 2), ("b", 1), ("c", 4)],
             mkRow [("a", 3), ("b", 4), ("c", 2)],
             mkRow [("a", 4), ("b", 3), ("c", 1)]] }

/-- CLAIM C1 (failing evaluation): on a frame with three columns and a valid
method, `get_steigers_z` does not return the C(C(3,2),2) = 3 comparison
rows the claim promises; it raises `TypeError` in the first loop iteration,
because `format_pval_flt` is called with one argument while its definition
requires two. -/
theorem get_steigers_z_three_cols_raises :
    get_steigers_z df31 "pearson" = Except.error (PyErr.typeError
      "format_pval_flt() missing 1 required positional argument: \x27digits\x27") :=
  rfl

/-- A second concrete three-column numeric frame. -/
def df32 : DataFrame :=
  { cols := ["u", "v", "w"]
    rows := [mkRow [("u", 1), ("v", 5), ("w", 2)],
             mkRow [("u", 2), ("v", 4), ("w", 1)],
             mkRow [("u", 3), ("v", 6), ("w", 3)]] }

/-- CLAIM C3 (failing evaluation): the p-value formatting call inside
`get_steigers_z` does not succeed: `format_pval_flt(p_value)` supplies one
argument to a function whose `digits` parameter has no default, so the call
raises `TypeError` and no formatted p-value is ever produced. -/
theorem get_steigers_z_pval_call_raises :
    get_steigers_z df32 "spearman" = Except.error (PyErr.typeError
      "format_pval_flt() missing 1 required positional argument: \x27digits\x27") :=
  rfl

/-- A concrete frame with one partially missing column. -/
def dfA : DataFrame :=
  { cols := ["q1"]
    rows := [mkRow [("q1", 1)], mkRow []] }

/-- CLAIM C10 (counterexample): with an empty column list no listed column
has a constant non-missingness indicator (vacuously), yet `all_apply` does
not return a table: it raises the empty-list `ValueError`. -/
theorem all_apply_empty_list_refutes :
    all_apply dfA [] "Group" false =
      Except.error (PyErr.valueError "Column list cannot be empty.") :=
  rfl

/-- CLAIM C7: `freq_prop` with `by=None` on a present column returns a
one-value-column frequency table: the value column is headed
`"N = len(df)"` (the total row count, missing rows included), there is
exactly one row per distinct non-missing value of the column, and the cell
of the row for value `v` is `"count (proportion%)"` where `count` is the
number of occurrences of `v` among the non-missing entries and the
proportion is `100 * count / (number of non-missing entries)` rounded to
one decimal place. -/
theorem freq_prop_none_spec (df : DataFrame) (column : String)
    (h : column ∈ df.cols) :
    ∃ t, freq_prop df column none = Except.ok t ∧
      t.cols = [column, "N = " ++ toString df.rows.length] ∧
      (∀ v : ℚ, (t.rows.map Prod.fst).count v =
        if v ∈ colVals df column then 1 else 0) ∧
      (∀ v ∈ colVals df column,
        (v, [some (toString ((colVals df column).count v) ++ " (" ++
          fmtFixed (((colVals df column).count v : ℚ) /
            ((colVals df column).length : ℚ) * 100) 1 ++ "%)")]) ∈ t.rows) := by
  have hfp : freq_prop df column none = Except.ok
      { cols := [column, "N = " ++ toString df.rows.length]
        rows := (valueCounts (colVals df column)).map
          (fun p => (p.1, [some (freqCell p.2 (colVals df column).length)]))
        labels := boldLabels [column, "N = " ++ toString df.rows.length] } := by
    rw [freq_prop.eq_def, if_neg (not_not_intro h)]
  refine ⟨_, hfp, rfl, fun v => ?_, fun v hv => ?_⟩
  · have hperm : List.Perm
        (((valueCounts (colVals df column)).map
          (fun p => (p.1, [some (freqCell p.2 (colVals df column).length)]))).map
            Prod.fst)
        (dedupFirst (colVals df column)) := by
      rw [List.map_map]
      have h1 := (sortDescBy_perm (Prod.snd : ℚ × ℕ → ℕ)
        ((dedupFirst (colVals df column)).map
          (fun u => (u, (colVals df column).count u)))).map
        (Prod.fst ∘ fun p : ℚ × ℕ => (p.1, [some (freqCell p.2 (colVals df column).length)]))
      rw [valueCounts]
      refine h1.trans ?_
      rw [List.map_map]
      have : (Prod.fst ∘ fun p : ℚ × ℕ =>
          (p.1, [some (freqCell p.2 (colVals df column).length)])) ∘
          (fun u : ℚ => (u, (colVals df column).count u)) = fun u => u := rfl
      rw [this, List.map_id']
    rw [hperm.count_eq, count_dedupFirst]
  · have hperm : List.Perm
        ((valueCounts (colVals df column)).map
          (fun p => (p.1, [some (freqCell p.2 (colVals df column).length)])))
        ((dedupFirst (colVals df column)).map
          (fun u => (u, [some (freqCell ((colVals df column).count u)
            (colVals df column).length)]))) := by
      have h1 := (sortDescBy_perm (Prod.snd : ℚ × ℕ → ℕ)
        ((dedupFirst (colVals df column)).map
          (fun u => (u, (colVals df column).count u)))).map
        (fun p : ℚ × ℕ => (p.1, [some (freqCell p.2 (colVals df column).length)]))
      rw [valueCounts]
      refine h1.trans ?_
      rw [List.map_map]
      exact List.Perm.refl _
    exact hperm.mem_iff.mpr (List.mem_map.mpr
      ⟨v, (mem_dedupFirst _ v).mpr hv, rfl⟩)

/-- A concrete frame for the C7 witness: three non-missing values (two of
them equal) and one missing cell. -/
def dfW : DataFrame :=
  { cols := ["x"]
    rows := [mkRow [("x", 1)], mkRow [("x", 1)], mkRow [("x", 2)], mkRow []] }

/-- Witness for C7 at the concrete frame `dfW`. -/
theorem freq_prop_none_spec_witness :
    "x" ∈ dfW.cols ∧
    (∃ t, freq_prop dfW "x" none = Except.ok t ∧
      t.cols = ["x", "N = " ++ toString dfW.rows.length] ∧
      (∀ v : ℚ, (t.rows.map Prod.fst).count v =
        if v ∈ colVals dfW "x" then 1 else 0) ∧
      (∀ v ∈ colVals dfW "x",
        (v, [some (toString ((colVals dfW "x").count v) ++ " (" ++
          fmtFixed (((colVals dfW "x").count v : ℚ) /
            ((colVals dfW "x").length : ℚ) * 100) 1 ++ "%)")]) ∈ t.rows)) :=
  ⟨by decide, freq_prop_none_spec dfW "x" (by decide)⟩

/-- Constant non-missingness of a column across the rows of a frame, as the
claim words it: the column is entirely missing or entirely non-missing over
the rows of `df` (an empty frame counts as constant). -/
def constNA (df : DataFrame) (c : String) : Bool :=
  df.rows.all (fun r => (r c).isNone) || df.rows.all (fun r => (r c).isSome)

theorem length_eq_count01 (l : List ℕ) (h : ∀ x ∈ l, x = 0 ∨ x = 1) :
    l.length = l.count 0 + l.count 1 := by
  induction l with
  | nil => rfl
  | cons x xs ih =>
      rw [List.length_cons, List.count_cons, List.count_cons,
        ih (fun y hy => h y (List.mem_cons_of_mem x hy))]
      rcases h x (List.mem_cons_self x xs) with rfl | rfl <;> simp <;> omega

/-- The binarity check of `all_apply` fails exactly on the columns whose
non-missingness indicator is constant. -/
theorem dedup_indicator_length_iff (df : DataFrame) (c : String) :
    (dedupFirst (indicator df c)).length ≠ 2 ↔ constNA df c = true := by
  have h01 : ∀ x ∈ indicator df c, x = 0 ∨ x = 1 := by
    intro x hx
    rcases List.mem_map.1 hx with ⟨r, _, rfl⟩
    by_cases h : (r c).isSome <;> simp [h]
  have h01d : ∀ x ∈ dedupFirst (indicator df c), x = 0 ∨ x = 1 := by
    intro x hx
    exact h01 x ((mem_dedupFirst _ x).mp hx)
  have hlen := length_eq_count01 _ h01d
  rw [count_dedupFirst, count_dedupFirst] at hlen
  have h0 : 0 ∈ indicator df c ↔ ¬ (df.rows.all (fun r => (r c).isSome) = true) := by
    simp only [indicator, List.mem_map, List.all_eq_true, not_forall]
    constructor
    · rintro ⟨r, hr, hval⟩
      refine ⟨r, hr, ?_⟩
      by_cases h : (r c).isSome
      · rw [if_pos h] at hval; cases hval
      · simp [h]
    · rintro ⟨r, hr, hval⟩
      refine ⟨r, hr, ?_⟩
      rw [if_neg (by simpa using hval)]
  have h1 : 1 ∈ indicator df c ↔ ¬ (df.rows.all (fun r => (r c).isNone) = true) := by
    simp only [indicator, List.mem_map, List.all_eq_true, not_forall]
    constructor
    · rintro ⟨r, hr, hval⟩
      refine ⟨r, hr, ?_⟩
      by_cases h : (r c).isSome
      · simp [Option.isNone_iff_eq_none, ← Option.not_isSome_iff_eq_none, h]
      · rw [if_neg h] at hval; cases hval
    · rintro ⟨r, hr, hval⟩
      refine ⟨r, hr, ?_⟩
      rw [if_pos (by
        rcases hnone : (r c) with _ | v
        · rw [hnone] at hval; simp at hval
        · simp)]
  by_cases hz : 0 ∈ indicator df c <;> by_cases ho : 1 ∈ indicator df c
  · simp only [hz, ho, if_true] at hlen
    have hA := h0.mp hz
    have hB := h1.mp ho
    simp [constNA, hA, hB, hlen]
  · simp only [hz, ho, if_true, if_false] at hlen
    have hB : df.rows.all (fun r => (r c).isNone) = true := by
      by_contra hb; exact ho (h1.mpr hb)
    simp [constNA, hB, hlen]
  · simp only [hz, ho, if_true, if_false] at hlen
    have hA : df.rows.all (fun r => (r c).isSome) = true := by
      by_contra ha; exact hz (h0.mpr ha)
    simp [constNA, hA, hlen]
  · simp only [hz, ho, if_false] at hlen
    have hA : df.rows.all (fun r => (r c).isSome) = true := by
      by_contra ha; exact hz (h0.mpr ha)
    simp [constNA, hA, hlen]

theorem notBinaryMsg_ne_emptyListMsg (c : String) :
    notBinaryMsg c ≠ "Column list cannot be empty." := by
  intro hmsg
  have hlen := congrArg String.length hmsg
  rw [notBinaryMsg, String.length_append, String.length_append] at hlen
  have h1 : ("Column \x27" : String).length = 8 := rfl
  have h2 :
      ("\x27 is not binary. Reformat before proceeding." : String).length = 44 :=
    rfl
  have h3 : ("Column list cannot be empty." : String).length = 28 := rfl
  rw [h1, h2, h3] at hlen
  omega

theorem sum_indicator_list (rows : List (String → Option ℚ)) (c : String) :
    (rows.map (fun r => if (r c).isSome then (1 : ℕ) else 0)).sum =
      rows.countP (fun r => (r c).isSome) := by
  induction rows with
  | nil => rfl
  | cons r rs ih =>
      simp only [List.map_cons, List.sum_cons, ih, List.countP_cons]
      cases h : (r c).isSome <;> simp [h, Nat.add_comm]

theorem indicator_sum_eq_countP (df : DataFrame) (c : String) :
    (indicator df c).sum = df.rows.countP (fun r => (r c).isSome) :=
  sum_indicator_list df.rows c

/-- CLAIM C10 (amended): for listed columns all present in `df`:
`all_apply` raises the column-naming "is not binary" `ValueError` exactly
when some listed column's non-missingness indicator is constant over the
rows of `df` (entirely missing or entirely non-missing, including the
empty-frame case); and when furthermore the column list is non-empty and no
listed column is constant, `all_apply` returns a table headed by the group
title and `"N = len(df)"` whose rows are, one per listed column and up to
the optional sort, the column name with its non-missing count and that
count as a percentage of the total row count to one decimal place. -/
theorem all_apply_spec (df : DataFrame) (columns : List String)
    (t : String) (s : Bool) (hsub : ∀ c ∈ columns, c ∈ df.cols) :
    ((∃ c, all_apply df columns t s =
        Except.error (PyErr.valueError (notBinaryMsg c))) ↔
      ∃ c ∈ columns, constNA df c = true) ∧
    (columns ≠ [] → (∀ c ∈ columns, constNA df c = false) →
      ∃ tbl, all_apply df columns t s = Except.ok tbl ∧
        tbl.cols = [t, "N = " ++ toString df.rows.length] ∧
        List.Perm tbl.rows (columns.map (fun c =>
          (c, toString (df.rows.countP (fun r => (r c).isSome)) ++ " (" ++
            (fmtFixed ((df.rows.countP (fun r => (r c).isSome) : ℚ) /
              (df.rows.length : ℚ) * 100) 1 ++ "%") ++ ")")))) := by
  have hall : columns.all (fun c => decide (c ∈ df.cols)) = true := by
    rw [List.all_eq_true]
    intro c hc
    simpa using hsub c hc
  constructor
  · constructor
    · rintro ⟨c, hc⟩
      by_cases hnil : columns = []
      · subst hnil
        rw [all_apply, if_pos rfl] at hc
        injection hc with h2
        injection h2 with h3
        exact absurd h3.symm (notBinaryMsg_ne_emptyListMsg c)
      · rw [all_apply, if_neg hnil, if_neg (not_not_intro hall)] at hc
        cases hmm : exceptMapM (applyRow df df.rows.length) columns with
        | ok results => rw [hmm] at hc; cases hc
        | error e =>
            rw [hmm] at hc
            injection hc with h2
            subst h2
            obtain ⟨col, hcol, hfcol⟩ := exceptMapM_error_mem _ _ _ hmm
            rw [applyRow] at hfcol
            by_cases hg : (dedupFirst (indicator df col)).length ≠ 2
            · exact ⟨col, hcol, (dedup_indicator_length_iff df col).mp hg⟩
            · rw [if_neg hg] at hfcol
              cases hfcol
    · rintro ⟨c, hcmem, hconst⟩
      have hnil : columns ≠ [] := by
        intro h; subst h; cases hcmem
      have hfc : applyRow df df.rows.length c =
          Except.error (PyErr.valueError (notBinaryMsg c)) := by
        rw [applyRow,
          if_pos ((dedup_indicator_length_iff df c).mpr hconst)]
      obtain ⟨e2, he2⟩ := exceptMapM_not_ok _ _ c hcmem _ hfc
      obtain ⟨col, hcolmem, hfcol⟩ := exceptMapM_error_mem _ _ _ he2
      have hg : (dedupFirst (indicator df col)).length ≠ 2 := by
        by_contra hgg
        rw [applyRow, if_neg (not_not_intro hgg)] at hfcol
        cases hfcol
      rw [applyRow, if_pos hg] at hfcol
      injection hfcol with h3
      subst h3
      refine ⟨col, ?_⟩
      rw [all_apply, if_neg hnil, if_neg (not_not_intro hall), he2]
  · intro hnil hnc
    have hok : exceptMapM (applyRow df df.rows.length) columns =
        Except.ok (columns.map (fun col =>
          (col, (indicator df col).sum,
            fmtFixed (((indicator df col).sum : ℚ) /
              (df.rows.length : ℚ) * 100) 1 ++ "%"))) := by
      apply exceptMapM_map
      intro col hcol
      rw [applyRow, if_neg (by
        intro hg
        have hco := hnc col hcol
        rw [(dedup_indicator_length_iff df col).mp hg] at hco
        cases hco)]
    have hres : all_apply df columns t s = Except.ok
        { cols := [t, "N = " ++ toString df.rows.length]
          rows := (if s then
              sortDescBy (fun t2 => t2.2.1) (columns.map (fun col =>
                (col, (indicator df col).sum,
                  fmtFixed (((indicator df col).sum : ℚ) /
                    (df.rows.length : ℚ) * 100) 1 ++ "%")))
            else (columns.map (fun col =>
                (col, (indicator df col).sum,
                  fmtFixed (((indicator df col).sum : ℚ) /
                    (df.rows.length : ℚ) * 100) 1 ++ "%")))).map
            (fun t2 => (t2.1, toString t2.2.1 ++ " (" ++ t2.2.2 ++ ")")) } := by
      rw [all_apply, if_neg hnil, if_neg (not_not_intro hall), hok]
    refine ⟨_, hres, rfl, ?_⟩
    have hperm0 : List.Perm
        (if s then
            sortDescBy (fun t2 => t2.2.1) (columns.map (fun col =>
              (col, (indicator df col).sum,
                fmtFixed (((indicator df col).sum : ℚ) /
                  (df.rows.length : ℚ) * 100) 1 ++ "%")))
          else (columns.map (fun col =>
              (col, (indicator df col).sum,
                fmtFixed (((indicator df col).sum : ℚ) /
                  (df.rows.length : ℚ) * 100) 1 ++ "%"))))
        (columns.map (fun col =>
          (col, (indicator df col).sum,
            fmtFixed (((indicator df col).sum : ℚ) /
              (df.rows.length : ℚ) * 100) 1 ++ "%"))) := by
      cases s with
      | false => exact List.Perm.refl _
      | true => exact sortDescBy_perm _ _
    refine (hperm0.map _).trans ?_
    rw [List.map_map]
    apply List.Perm.of_eq
    apply List.map_congr_left
    intro col hcol
    simp only [Function.comp, indicator_sum_eq_countP]

/-- A concrete two-column frame in which each column is missing in exactly
one row (so neither indicator is constant). -/
def dfB : DataFrame :=
  { cols := ["a", "b"]
    rows := [mkRow [("a", 1)], mkRow [("b", 2)]] }

/-- Witness for the amended C10 at the concrete frame `dfB`. -/
theorem all_apply_spec_witness :
    (∀ c ∈ (["a", "b"] : List String), c ∈ dfB.cols) ∧
    (∃ tbl, all_apply dfB ["a", "b"] "Group" true = Except.ok tbl ∧
      tbl.cols = ["Group", "N = " ++ toString dfB.rows.length] ∧
      List.Perm tbl.rows ((["a", "b"] : List String).map (fun c =>
        (c, toString (dfB.rows.countP (fun r => (r c).isSome)) ++ " (" ++
          (fmtFixed ((dfB.rows.countP (fun r => (r c).isSome) : ℚ) /
            (dfB.rows.length : ℚ) * 100) 1 ++ "%") ++ ")")))) :=
  ⟨by decide,
    (all_apply_spec dfB ["a", "b"] "Group" true (by decide)).2
      (by decide) (by decide)⟩

/-- Modelled from the spec: the overlapping-case Steiger z formula exactly
as the claim states it, applied to the two correlations named in the row's
Comparison label: `rjk` and `rjh` are the compared correlations (sharing
variable `j`) and `rkh` is the correlation of the two non-shared variables. -/
noncomputable def steigersOverlapZspec (rjk rjh rkh : ℝ) (n : ℕ) : ℝ :=
  (rjk - rjh) * Real.sqrt ((n : ℝ) - 3) * Real.sqrt (1 + rkh) /
    Real.sqrt (2 * (1 - rjk ^ 2 - rjh ^ 2 - rkh ^ 2 + 2 * rjk * rjh * rkh))

/-- A concrete three-column frame of rank data: the pairwise Pearson
correlations are r_xy = 4/5, r_xz = 4/5, r_yz = 2/5. -/
def dfC : DataFrame :=
  { cols := ["x", "y", "z"]
    rows := [mkRow [("x", 1), ("y", 1), ("z", 1)],
             mkRow [("x", 2), ("y", 3), ("z", 2)],
             mkRow [("x", 3), ("y", 2), ("z", 4)],
             mkRow [("x", 4), ("y", 4), ("z", 3)]] }

/-- The overlapping second-order pair labelled "x-y vs. y-z" (the shared
variable is y). -/
def pC : (String × String) × (String × String) := (("x", "y"), ("y", "z"))

theorem pearson_xy : pearsonR [1, 2, 3, 4] [1, 3, 2, 4] = 4 / 5 := by
  unfold pearsonR
  simp only [rsum, List.map_cons, List.map_nil, List.sum_cons, List.sum_nil,
    List.zip_cons_cons, List.zip_nil_right, List.length_cons, List.length_nil]
  norm_num
  rw [show (25 : ℝ) = 5 ^ 2 by norm_num]
  rw [Real.sqrt_sq (by norm_num : (0:ℝ) ≤ 5)]

theorem pearson_xz : pearsonR [1, 2, 3, 4] [1, 2, 4, 3] = 4 / 5 := by
  unfold pearsonR
  simp only [rsum, List.map_cons, List.map_nil, List.sum_cons, List.sum_nil,
    List.zip_cons_cons, List.zip_nil_right, List.length_cons, List.length_nil]
  norm_num
  rw [show (25 : ℝ) = 5 ^ 2 by norm_num]
  rw [Real.sqrt_sq (by norm_num : (0:ℝ) ≤ 5)]

theorem pearson_yz : pearsonR [1, 3, 2, 4] [1, 2, 4, 3] = 2 / 5 := by
  unfold pearsonR
  simp only [rsum, List.map_cons, List.map_nil, List.sum_cons, List.sum_nil,
    List.zip_cons_cons, List.zip_nil_right, List.length_cons, List.length_nil]
  norm_num
  rw [show (25 : ℝ) = 5 ^ 2 by norm_num]
  rw [Real.sqrt_sq (by norm_num : (0:ℝ) ≤ 5)]

theorem comparisonZ_dfC_eq :
    comparisonZ dfC "pearson" pC =
      (pearsonR [1, 2, 3, 4] [1, 3, 2, 4] - pearsonR [1, 2, 3, 4] [1, 2, 4, 3]) *
        Real.sqrt (((4 : ℕ) : ℝ) - 3) *
        Real.sqrt (1 + pearsonR [1, 3, 2, 4] [1, 2, 4, 3]) /
      Real.sqrt (2 * (1 - pearsonR [1, 2, 3, 4] [1, 3, 2, 4] ^ 2 -
        pearsonR [1, 2, 3, 4] [1, 2, 4, 3] ^ 2 -
        pearsonR [1, 3, 2, 4] [1, 2, 4, 3] ^ 2 +
        2 * pearsonR [1, 2, 3, 4] [1, 3, 2, 4] *
          pearsonR [1, 2, 3, 4] [1, 2, 4, 3] *
          pearsonR [1, 3, 2, 4] [1, 2, 4, 3])) :=
  rfl

/-- CLAIM C2 (failing evaluation): on the concrete frame `dfC`, for the
overlapping comparison labelled "x-y vs. y-z" (the pairs share variable y),
the z statistic computed by the loop body of `get_steigers_z` is not the
overlapping formula applied to the two correlations named in the label
(r_xy and r_yz, with r_xz the correlation of the non-shared variables):
the code computes the formula on `r12 = r_xy` and `r13 = r_xz`, the
correlations of the first `flat`-order variable with the other two, which
here yields z = 0 while the labelled comparison has a nonzero z. -/
theorem comparisonZ_mislabels_overlap :
    comparisonZ dfC "pearson" pC ≠
      steigersOverlapZspec
        (corrM "pearson" (colVals (tempOf dfC pC) "x")
          (colVals (tempOf dfC pC) "y"))
        (corrM "pearson" (colVals (tempOf dfC pC) "y")
          (colVals (tempOf dfC pC) "z"))
        (corrM "pearson" (colVals (tempOf dfC pC) "x")
          (colVals (tempOf dfC pC) "z"))
        (nOf dfC pC) := by
  have hL : comparisonZ dfC "pearson" pC = 0 := by
    rw [comparisonZ_dfC_eq, pearson_xy, pearson_xz, pearson_yz]
    norm_num
  have hRxy : corrM "pearson" (colVals (tempOf dfC pC) "x")
      (colVals (tempOf dfC pC) "y") = pearsonR [1, 2, 3, 4] [1, 3, 2, 4] := rfl
  have hRyz : corrM "pearson" (colVals (tempOf dfC pC) "y")
      (colVals (tempOf dfC pC) "z") = pearsonR [1, 3, 2, 4] [1, 2, 4, 3] := rfl
  have hRxz : corrM "pearson" (colVals (tempOf dfC pC) "x")
      (colVals (tempOf dfC pC) "z") = pearsonR [1, 2, 3, 4] [1, 2, 4, 3] := rfl
  have hn : nOf dfC pC = 4 := rfl
  have hR : steigersOverlapZspec
      (corrM "pearson" (colVals (tempOf dfC pC) "x")
        (colVals (tempOf dfC pC) "y"))
      (corrM "pearson" (colVals (tempOf dfC pC) "y")
        (colVals (tempOf dfC pC) "z"))
      (corrM "pearson" (colVals (tempOf dfC pC) "x")
        (colVals (tempOf dfC pC) "z"))
      (nOf dfC pC) ≠ 0 := by
    rw [hRxy, hRyz, hRxz, hn, pearson_xy, pearson_xz, pearson_yz,
      steigersOverlapZspec]
    apply div_ne_zero
    · apply mul_ne_zero
      · apply mul_ne_zero
        · norm_num
        · rw [Real.sqrt_ne_zero']
          push_cast
          norm_num
      · rw [Real.sqrt_ne_zero']
        norm_num
    · rw [Real.sqrt_ne_zero']
      norm_num
  intro heq
  rw [hL] at heq
  exact hR heq.symm
